import Mathlib

/-!
Shallow embedding of the PropertyFinder.ae scraper (`src/main.js`) and
verification of the specification's claims about it.

JavaScript values relevant to the record pipeline are modelled by `JSVal`
(strings, numbers, booleans, and the small objects accessed via `?.name`),
with JavaScript numbers modelled by `JSNum` (rationals plus `NaN` and the
infinities; no floating-point rounding is relevant to any claim).  A record
(JavaScript object) is a function from the fixed field vocabulary `Field`
to `Option (Option JSVal)`: the outer `Option` is key presence (objects
built by different extractors carry different key sets, which matters for
the spread-merge), the inner `Option` is null/undefined vs. a value.
-/

namespace PF

/-- JavaScript numbers: NaN, the two infinities, or a finite value. -/
inductive JSNum where
  | nan : JSNum
  | posInf : JSNum
  | negInf : JSNum
  | num (q : ℚ) : JSNum
  deriving DecidableEq, Repr

/-- JavaScript values flowing through the scraper's records: strings,
numbers, booleans, and objects that are only ever read via `?.name`
(`prop.location`, `prop.broker`, `prop.agent`, `prop.category`,
`candidate.seller`, `candidate.agent`). -/
inductive JSVal where
  | str (s : String) : JSVal
  | num (n : JSNum) : JSVal
  | bool (b : Bool) : JSVal
  | objWithName (name : Option String) : JSVal
  deriving DecidableEq, Repr

/-- The field vocabulary of every record object the scraper builds. -/
inductive Field where
  | title | price | currency | location | city
  | bedrooms | bathrooms | area | areaUnit
  | agentName | postedDate | description
  | url | propertyType | verified | featured
  deriving DecidableEq, Fintype, Repr

/-- A JavaScript object over the scraper's field vocabulary.  `none` means
the key is absent; `some none` means the key is present with a nullish
value (`null`/`undefined`); `some (some v)` is a present non-null value. -/
abbrev JSObj := Field → Option (Option JSVal)

/-- Property read `o.k` : absent keys and null values both read as nullish. -/
def getVal (o : JSObj) (k : Field) : Option JSVal :=
  match o k with
  | some v => v
  | none => none

/-- The object with no keys (the `{}` in `extractJsonLd($) || {}`). -/
def emptyObj : JSObj := fun _ => none

/-- Object spread `{...a, ...b}`: a key present in `b` wins even when its
value is nullish; keys only in `a` survive. -/
def spreadObj (a b : JSObj) : JSObj := fun k =>
  match b k with
  | some v => some v
  | none => a k

/-- JavaScript falsiness of a (possibly nullish) value: nullish, `""`,
`0`, `NaN` and `false` are falsy. -/
def jsFalsy : Option JSVal → Bool
  | none => true
  | some (.str s) => s.isEmpty
  | some (.num (.num q)) => decide (q = 0)
  | some (.num .nan) => true
  | some (.num .posInf) => false
  | some (.num .negInf) => false
  | some (.bool b) => !b
  | some (.objWithName _) => false

/-- JavaScript `a || b` on (possibly nullish) values. -/
def jsOrV (a b : Option JSVal) : Option JSVal :=
  if jsFalsy a then b else a

/-- JavaScript `a?.name`: the `name` property when `a` is one of the small
objects, nullish otherwise (strings, numbers and booleans have no `name`). -/
def optChainName : Option JSVal → Option JSVal
  | some (.objWithName (some s)) => some (.str s)
  | _ => none

/-- JavaScript `a || b` for an optional string against a string default. -/
def jsOrS (a : Option String) (b : String) : String :=
  match a with
  | some s => if s.isEmpty then b else s
  | none => b

/-- Split a character list into the maximal runs of characters satisfying
`keep` (the runs of a `/p+/g`-style scan), dropping the separators. -/
def tokensBy (keep : Char → Bool) (l : List Char) : List (List Char) :=
  (l.foldr
    (fun c acc =>
      if keep c then
        match acc with
        | w :: ws => (c :: w) :: ws
        | [] => [[c]]
      else [] :: acc)
    []).filter (fun w => !w.isEmpty)

/-- Embeds `cleanText` (main.js:6-10): collapse whitespace runs to single
spaces, trim, and return null for absent or effectively empty input. -/
def cleanText (text : Option String) : Option String :=
  match text with
  | none => none
  | some s =>
    if s.isEmpty then none
    else
      match tokensBy (fun c => !c.isWhitespace) s.toList with
      | [] => none
      | w :: ws => some (String.mk (List.intercalate [' '] (w :: ws)))

/-- Characters matched by the regex class `[\d.]`. -/
def isNumChar (c : Char) : Bool := c.isDigit || c = '.'

/-- First match of `/[\d.]+/`: the first maximal run of digit/dot chars. -/
def firstNumRun (l : List Char) : Option (List Char) :=
  (tokensBy isNumChar l).head?

/-- Numeric value of a digit list, most significant first. -/
def natOfDigits (l : List Char) : ℕ :=
  l.foldl (fun a c => a * 10 + (c.toNat - 48)) 0

/-- JavaScript `Number(tok)` for a token drawn from `[\d.]+`: a decimal
with at most one dot and at least one digit is a finite number (this covers
`"5."` and `".5"`); a token of dots only, or with several dots, is NaN. -/
def jsNumOfToken (tok : List Char) : JSNum :=
  let dots := tok.countP (fun c => c = '.')
  if dots = 0 then .num (natOfDigits tok)
  else if dots = 1 && tok.any Char.isDigit then
    let intDigits := tok.takeWhile (fun c => c ≠ '.')
    let fracDigits := (tok.dropWhile (fun c => c ≠ '.')).drop 1
    .num (mkRat (natOfDigits intDigits * 10 ^ fracDigits.length +
      natOfDigits fracDigits) (10 ^ fracDigits.length))
  else .nan

/-- Embeds `numberFromText` (main.js:22-26): falsy input gives null; all
commas are stripped; the first `[\d.]+` run is passed to `Number`; no run
gives null. -/
def numberFromText (text : Option String) : Option JSNum :=
  match text with
  | none => none
  | some s =>
    if s.isEmpty then none
    else
      match firstNumRun (s.toList.filter (fun c => c ≠ ',')) with
      | none => none
      | some tok => some (jsNumOfToken tok)

/-- Case-insensitive: does `pat` (given lowercase) start the list `l`? -/
def matchPrefixCI : List Char → List Char → Bool
  | [], _ => true
  | _ :: _, [] => false
  | p :: ps, c :: cs => (c.toLower = p) && matchPrefixCI ps cs

/-- First match of a regex alternation of literal words (case-insensitive):
scan left to right, and at each position try the alternatives in order;
return the matched slice of the original text. -/
def scanAlts (alts : List (List Char)) : List Char → Option (List Char)
  | [] => none
  | c :: cs =>
    match alts.find? (fun p => matchPrefixCI p (c :: cs)) with
    | some p => some ((c :: cs).take p.length)
    | none => scanAlts alts cs

/-- First match of `/AED|DHS|DH/i`, upper-cased as the code does. -/
def currencyTok (s : String) : Option String :=
  (scanAlts [['a', 'e', 'd'], ['d', 'h', 's'], ['d', 'h']] s.toList).map
    (fun l => String.mk (l.map Char.toUpper))

/-- Embeds `parsePrice` (main.js:28-33): the numeric part via
`numberFromText`, the currency via the first `/AED|DHS|DH/i` match on
`text || ''`, defaulting to `"AED"`. -/
def parsePrice (text : Option String) : Option JSNum × String :=
  (numberFromText text,
    match currencyTok (text.getD "") with
    | some c => c
    | none => "AED")

/-- First match of `/sq ?ft|ft2/i` (greedy `?`: with the space first). -/
def sqftTok (s : String) : Option String :=
  (scanAlts [['s', 'q', ' ', 'f', 't'], ['s', 'q', 'f', 't'],
    ['f', 't', '2']] s.toList).map String.mk

/-- First match of `/m2|sqm/i` (listing cards, main.js:123 and 151). -/
def m2Tok (s : String) : Option String :=
  (scanAlts [['m', '2'], ['s', 'q', 'm']] s.toList).map String.mk

/-- First match of `/m2|sqm|sq ?m/i` (detail page, main.js:237). -/
def m2DetailTok (s : String) : Option String :=
  (scanAlts [['m', '2'], ['s', 'q', 'm'], ['s', 'q', ' ', 'm']]
    s.toList).map String.mk

/-- The `areaUnit` expression of the listing-card extractors (main.js:123,
151): `areaText?.match(sqft)?.[0] || areaText?.match(m2)?.[0] || null`. -/
def areaUnitOf (areaText : Option String) : Option JSVal :=
  jsOrV
    (jsOrV ((areaText.bind sqftTok).map JSVal.str)
      ((areaText.bind m2Tok).map JSVal.str))
    none

/-- The `String.prototype.startsWith` test, on the character lists. -/
def startsWithStr (s p : String) : Bool :=
  p.toList.isPrefixOf s.toList

/-- Embeds `toAbsoluteUrl` (main.js:12-20).  A falsy href is null; an
`http`-prefixed href passes through; otherwise the href is resolved against
`https://www.propertyfinder.ae`.  WHATWG resolution is an external library
concern: it is modelled here for the path shapes the site uses
(root-relative and bare-relative); no claim depends on the exact
serialization. -/
def toAbsoluteUrl (href : Option String) : Option String :=
  match href with
  | none => none
  | some h =>
    if h.isEmpty then none
    else if startsWithStr h "http" then some h
    else if startsWithStr h "/" then some ("https://www.propertyfinder.ae" ++ h)
    else some ("https://www.propertyfinder.ae/" ++ h)

/-- JavaScript property reads (`prop.slug` etc.) give arbitrary values;
`toAbsoluteUrl` calls `href.startsWith`, which throws for non-strings and
is caught, yielding null.  This adapter models that. -/
def hrefOf : Option JSVal → Option String
  | some (.str s) => some s
  | _ => none

/-- Lowercase-alphanumeric test for the slug class `[a-z0-9]` after
lowercasing. -/
def isSlugChar (c : Char) : Bool := c.isDigit || ('a' ≤ c && c ≤ 'z')

/-- The `normalize` helper of `buildSearchUrl` (main.js:48-52): lowercase,
collapse each run of other characters to a single hyphen, strip edge hyphens. -/
def normalizeSlug (v : String) : String :=
  String.mk
    (List.intercalate ['-'] (tokensBy isSlugChar (v.toList.map Char.toLower)))

/-- JavaScript falsiness for an optional string (`!startUrl` etc.). -/
def strFalsy : Option String → Bool
  | none => true
  | some s => s.isEmpty

/-- Models `url.searchParams.set('page', p); url.href`.  The exact WHATWG
serialization is an external library concern; the claims depend only on
the result being a deterministic function of the URL and the page. -/
def setPageParam (s : String) (page : ℕ) : String :=
  s ++ "?page=" ++ toString page

/-- The fatal pre-flight errors: the two validation throws of
main.js:301-306, the equivalent throw inside `buildSearchUrl` (main.js:43),
and the `TypeError` thrown by `new URL(startUrl)` (main.js:38) for a truthy
`startUrl` that is not a parseable absolute URL. -/
inductive ConfigError where
  | invalidCategoryType : ConfigError
  | missingCriteria : ConfigError
  | invalidStartUrl : ConfigError
  deriving DecidableEq, Repr

/-- Characters allowed in a URL scheme after its leading letter. -/
def isSchemeChar (c : Char) : Bool :=
  c.isAlpha || c.isDigit || c = '+' || c = '-' || c = '.'

/-- Models the validity test of the WHATWG `new URL(href)` constructor
without a base: the input must begin with a scheme — an ASCII letter, then
scheme characters, then a colon — else the constructor throws.  Finer
failure modes of the external URL parser are not modelled; this captures
the scheme requirement under which main.js:38 throws for inputs such as
`"not a url"`. -/
def urlParseOk (s : String) : Bool :=
  match s.toList with
  | [] => false
  | c :: cs =>
    c.isAlpha && decide ((cs.dropWhile isSchemeChar).head? = some ':')

/-- Embeds `buildSearchUrl` (main.js:36-62).  `.error .invalidStartUrl`
models the `new URL(startUrl)` throw (main.js:38) on a truthy malformed
`startUrl`; `.error .missingCriteria` models the
`Provide either "startUrl" or "location"` throw (main.js:43). -/
def buildSearchUrl (startUrl location : Option String) (propertyType : String)
    (categoryType : ℚ) (page : ℕ) : Except ConfigError String :=
  if !strFalsy startUrl then
    if urlParseOk (startUrl.getD "") then
      .ok (setPageParam (startUrl.getD "") page)
    else .error .invalidStartUrl
  else if strFalsy location then .error .missingCriteria
  else
    let action := if categoryType = 2 then "rent" else "sale"
    let actionPath := if categoryType = 2 then "rent" else "buy"
    let locSlug := normalizeSlug (location.getD "")
    let typeSlug := normalizeSlug (jsOrS (some propertyType) "property")
    .ok (setPageParam
      ("https://www.propertyfinder.ae/en/" ++ actionPath ++ "/" ++ locSlug ++
        "/" ++ typeSlug ++ "s-for-" ++ action ++ ".html") page)

/-!
Extractor inputs.  The HTML/JSON parsing primitives (the `__NEXT_DATA__`
regex plus `JSON.parse`, the cheerio selector queries) are external
collaborators; a `Page` carries their outcomes, and the extraction logic
built on them (main.js:64-269) is embedded below.
-/

/-- A raw property object from the `__NEXT_DATA__` state, with every
alternate field name the mapper reads (main.js:77-93). -/
structure NDProp where
  name : Option JSVal := none
  title : Option JSVal := none
  price : Option JSVal := none
  price_value : Option JSVal := none
  currency : Option JSVal := none
  location : Option JSVal := none
  location_name : Option JSVal := none
  bedrooms : Option JSVal := none
  bedroom : Option JSVal := none
  bathrooms : Option JSVal := none
  bathroom : Option JSVal := none
  area : Option JSVal := none
  size : Option JSVal := none
  area_unit : Option JSVal := none
  broker : Option JSVal := none
  agent : Option JSVal := none
  contact_name : Option JSVal := none
  slug : Option JSVal := none
  url : Option JSVal := none
  property_url : Option JSVal := none
  category : Option JSVal := none
  property_type : Option JSVal := none
  verified : Option JSVal := none
  featured : Option JSVal := none
  deriving DecidableEq, Repr

/-- The `price` expression of the `__NEXT_DATA__` mapper (main.js:78-81):
`typeof priceValue === 'number' ? priceValue : numberFromText(priceValue)`.
For a non-number, `numberFromText` coerces with `String()`: booleans give
`"true"`/`"false"` and objects `"[object Object]"`, none of which contain a
digit or dot, so those cases are null. -/
def ndPriceVal (p : NDProp) : Option JSVal :=
  match jsOrV p.price p.price_value with
  | some (.num n) => some (.num n)
  | some (.str s) => (numberFromText (some s)).map .num
  | _ => none

/-- The `url` expression of the `__NEXT_DATA__` mapper (main.js:89). -/
def ndUrlVal (p : NDProp) : Option JSVal :=
  match toAbsoluteUrl (hrefOf (jsOrV (jsOrV p.slug p.url) p.property_url)) with
  | some a => some (.str a)
  | none => none

/-- The record literal of the `__NEXT_DATA__` mapper (main.js:79-93): all
thirteen keys are present on every mapped record, with possibly nullish
values; `city`, `postedDate` and `description` are absent. -/
def mapNextProp (p : NDProp) : JSObj := fun k =>
  match k with
  | .title => some (jsOrV p.name p.title)
  | .price => some (ndPriceVal p)
  | .currency => some (jsOrV p.currency (some (.str "AED")))
  | .location =>
    some (jsOrV (jsOrV (optChainName p.location) p.location_name) p.location)
  | .bedrooms => some (jsOrV p.bedrooms p.bedroom)
  | .bathrooms => some (jsOrV p.bathrooms p.bathroom)
  | .area => some (jsOrV p.area p.size)
  | .areaUnit => some (jsOrV p.area_unit (some (.str "sqft")))
  | .agentName =>
    some (jsOrV (jsOrV (optChainName p.broker) (optChainName p.agent))
      p.contact_name)
  | .url => some (ndUrlVal p)
  | .propertyType => some (jsOrV (optChainName p.category) p.property_type)
  | .verified => some (jsOrV p.verified (some (.bool false)))
  | .featured => some (jsOrV p.featured (some (.bool false)))
  | .city => none
  | .postedDate => none
  | .description => none

/-- Raw selector-query results for one listing card: `.attr('href')` is
`Option` (undefined when absent), `.text()` is always a string (empty when
nothing matches). -/
structure SelCard where
  linkHref : Option String := none
  titleText : String := ""
  priceText : String := ""
  locationText : String := ""
  bedroomsText : String := ""
  bathroomsText : String := ""
  areaText : String := ""
  deriving DecidableEq, Repr

/-- The nine-key record literal shared by both selector tiers
(main.js:125-128 and 153-156). -/
def selRecord (title : String) (price : Option JSNum) (currency : String)
    (location : Option String) (bedrooms bathrooms : Option JSNum)
    (area : Option JSNum) (areaUnit : Option JSVal) (url : String) : JSObj :=
  fun k =>
    match k with
    | .title => some (some (.str title))
    | .price => some (price.map .num)
    | .currency => some (some (.str currency))
    | .location => some (location.map .str)
    | .bedrooms => some (bedrooms.map .num)
    | .bathrooms => some (bathrooms.map .num)
    | .area => some (area.map .num)
    | .areaUnit => some areaUnit
    | .url => some (some (.str url))
    | _ => none

/-- Embeds the `data-testid` card extraction (main.js:106-132): cards
without a resolvable URL are dropped; the title falls back to the literal
`'Property'`. -/
def mapTestidCard (c : SelCard) : Option JSObj :=
  match toAbsoluteUrl c.linkHref with
  | none => none
  | some u =>
    let title := jsOrS (cleanText (some c.titleText)) "Property"
    let priceText := cleanText (some c.priceText)
    let pc := parsePrice priceText
    let location := cleanText (some c.locationText)
    let bedrooms := numberFromText (some c.bedroomsText)
    let bathrooms := numberFromText (some c.bathroomsText)
    let areaText := cleanText (some c.areaText)
    let area := numberFromText areaText
    some (selRecord title pc.1 pc.2 location bedrooms bathrooms area
      (areaUnitOf areaText) u)

/-- Embeds the generic-selector fallback card extraction (main.js:136-160);
it differs from the `data-testid` tier in normalizing a null price text to
`''` before `parsePrice` (main.js:144). -/
def mapGenericCard (c : SelCard) : Option JSObj :=
  match toAbsoluteUrl c.linkHref with
  | none => none
  | some u =>
    let title := jsOrS (cleanText (some c.titleText)) "Property"
    let priceText := (cleanText (some c.priceText)).getD ""
    let pc := parsePrice (some priceText)
    let location := cleanText (some c.locationText)
    let bedrooms := numberFromText (some c.bedroomsText)
    let bathrooms := numberFromText (some c.bathroomsText)
    let areaText := cleanText (some c.areaText)
    let area := numberFromText areaText
    some (selRecord title pc.1 pc.2 location bedrooms bathrooms area
      (areaUnitOf areaText) u)

/-- A parsed JSON-LD offer object. -/
structure LdOffer where
  price : Option JSVal := none
  priceCurrency : Option JSVal := none
  deriving DecidableEq, Repr

/-- `candidate.offers`: either an array or a single object. -/
inductive LdOffers where
  | arr (l : List LdOffer) : LdOffers
  | single (o : LdOffer) : LdOffers
  deriving DecidableEq, Repr

/-- `candidate.floorSize`: either an object with `value`/`unitText` or a
raw value. -/
inductive LdFloorSize where
  | obj (value : Option JSVal) (unitText : Option JSVal) : LdFloorSize
  | raw (v : JSVal) : LdFloorSize
  deriving DecidableEq, Repr

/-- A parsed JSON-LD candidate object, carrying every property the mapper
reads (main.js:176-193).  The nested `address` object is flattened to the
three fields actually read. -/
structure LdCandidate where
  atType : Option String := none
  name : Option JSVal := none
  headline : Option JSVal := none
  description : Option JSVal := none
  streetAddress : Option JSVal := none
  addressLocality : Option JSVal := none
  addressRegion : Option JSVal := none
  offers : Option LdOffers := none
  floorSize : Option LdFloorSize := none
  numberOfRooms : Option JSVal := none
  numberOfBedrooms : Option JSVal := none
  numberOfBathroomsTotal : Option JSVal := none
  numberOfBathrooms : Option JSVal := none
  url : Option JSVal := none
  datePosted : Option JSVal := none
  datePublished : Option JSVal := none
  seller : Option JSVal := none
  agent : Option JSVal := none
  deriving DecidableEq, Repr

/-- One `ld+json` script block as the loop sees it: `skip` covers every
`continue` path of main.js:168-175 and 195-197 (empty content, a JSON parse
failure, an empty array, a non-object candidate); `cand` is a parsed object
candidate. -/
inductive LdBlock where
  | skip : LdBlock
  | cand (c : LdCandidate) : LdBlock
  deriving DecidableEq, Repr

/-- The type gate of main.js:176: `candidate['@type']` is truthy and
matches `/RealEstateListing|Offer/i`. -/
def ldTypeTest (t : Option String) : Bool :=
  match t with
  | none => false
  | some s =>
    !s.isEmpty &&
      (scanAlts
        [['r', 'e', 'a', 'l', 'e', 's', 't', 'a', 't', 'e', 'l', 'i', 's',
          't', 'i', 'n', 'g'], ['o', 'f', 'f', 'e', 'r']] s.toList).isSome

/-- Leading and trailing whitespace removal, as `Number()` applies. -/
def trimChars (l : List Char) : List Char :=
  ((l.dropWhile Char.isWhitespace).reverse.dropWhile Char.isWhitespace).reverse

/-- JavaScript strict `Number(s)` for a string (main.js:184): the empty
string is 0; otherwise an optional sign followed by a decimal token;
anything else (including comma-grouped digits) is NaN.  Exponent and hex
forms do not occur on this site and are not modelled. -/
def jsStrictNumber (s : String) : JSNum :=
  match trimChars s.toList with
  | [] => .num 0
  | c :: rest =>
    let neg := c = '-'
    let body := if c = '-' || c = '+' then rest else c :: rest
    if !body.isEmpty && body.all isNumChar &&
        body.countP (fun x => x = '.') ≤ 1 && body.any Char.isDigit then
      match jsNumOfToken body with
      | .num q => .num (if neg then -q else q)
      | _ => .nan
    else .nan

/-- JavaScript `Number(v)` for the (truthy) `offers.price` value
(main.js:184). -/
def jsNumberCoerce : Option JSVal → JSNum
  | some (.str s) => jsStrictNumber s
  | some (.num n) => n
  | some (.bool b) => .num (if b then 1 else 0)
  | some (.objWithName _) => .nan
  | none => .nan

/-- `Array.isArray(candidate.offers) ? candidate.offers[0] :
candidate.offers` (main.js:177); `[0]` of an empty array is undefined. -/
def ldFirstOffer (o : Option LdOffers) : Option LdOffer :=
  match o with
  | some (.arr l) => l.head?
  | some (.single of) => some of
  | none => none

/-- The `area` value of the JSON-LD mapper (main.js:178 and 188):
`areaValue = floorSize?.value ?? floorSize`, then
`typeof areaValue === 'number' ? areaValue : numberFromText(areaValue)`.
When `floorSize` is an object without `value`, `areaValue` is that object
and `numberFromText` sees `"[object Object]"`, which has no digit or dot. -/
def ldAreaVal (fs : Option LdFloorSize) : Option JSVal :=
  match fs with
  | none => none
  | some (.raw (.num n)) => some (.num n)
  | some (.raw (.str s)) => (numberFromText (some s)).map .num
  | some (.raw _) => none
  | some (.obj (some (.num n)) _) => some (.num n)
  | some (.obj (some (.str s)) _) => (numberFromText (some s)).map .num
  | some (.obj (some _) _) => none
  | some (.obj none _) => none

/-- The thirteen-key record literal of the JSON-LD mapper
(main.js:179-193). -/
def mapLdCandidate (c : LdCandidate) : JSObj :=
  let offers := ldFirstOffer c.offers
  let price : Option JSVal :=
    match offers with
    | none => none
    | some o => if jsFalsy o.price then none else some (.num (jsNumberCoerce o.price))
  let offersCurrency : Option JSVal :=
    match offers with
    | none => none
    | some o => o.priceCurrency
  fun k =>
    match k with
    | .title => some (jsOrV c.name c.headline)
    | .description => some c.description
    | .location => some (jsOrV c.streetAddress c.addressLocality)
    | .city => some c.addressRegion
    | .price => some price
    | .currency => some (jsOrV offersCurrency (some (.str "AED")))
    | .bedrooms => some (jsOrV c.numberOfRooms c.numberOfBedrooms)
    | .bathrooms => some (jsOrV c.numberOfBathroomsTotal c.numberOfBathrooms)
    | .area => some (ldAreaVal c.floorSize)
    | .areaUnit =>
      some (match c.floorSize with
        | some (.obj _ u) => u
        | _ => none)
    | .url => some c.url
    | .postedDate => some (jsOrV c.datePosted c.datePublished)
    | .agentName => some (jsOrV (optChainName c.seller) (optChainName c.agent))
    | _ => none

/-- The scan loop of `extractJsonLd` over the (already bounded) blocks:
skipped blocks fall through; the first candidate passing the type gate
wins; a candidate of the wrong type also falls through. -/
def extractJsonLdAux : List LdBlock → Option JSObj
  | [] => none
  | .skip :: rest => extractJsonLdAux rest
  | .cand c :: rest =>
    if ldTypeTest c.atType then some (mapLdCandidate c)
    else extractJsonLdAux rest

/-- Embeds `extractJsonLd` (main.js:166-203): scan at most the first five
`ld+json` blocks. -/
def extractJsonLd (blocks : List LdBlock) : Option JSObj :=
  extractJsonLdAux (blocks.take 5)

/-- A fetched listing page, as the extraction tiers see it.
`nextDataProperties` is the value of
`JSON.parse(match).props.pageProps.searchResult.properties` when the
`__NEXT_DATA__` script block is present, parses, and that path holds an
array (main.js:67-73); otherwise `none`.  `ldBlocks` are the document's
`ld+json` script blocks, and `testidCards`/`genericCards` the raw selector
query results of the two selector tiers. -/
structure Page where
  nextDataProperties : Option (List NDProp) := none
  ldBlocks : List LdBlock := []
  testidCards : List SelCard := []
  genericCards : List SelCard := []

/-- Embeds `extractNextData` (main.js:65-99): `none` when the script block
is absent, unparsable, or the properties path is missing, not an array, or
an empty array; otherwise the mapped records, keeping only those with a
truthy URL (the post-map filter can legitimately produce an empty list). -/
def extractNextData (pg : Page) : Option (List JSObj) :=
  match pg.nextDataProperties with
  | none => none
  | some props =>
    if props.length = 0 then none
    else some ((props.map mapNextProp).filter
      (fun c => !jsFalsy (getVal c Field.url)))

/-- Embeds `extractListingCards` (main.js:102-164): the `data-testid` tier
first; the generic-selector tier only when it yields no cards. -/
def extractListingCards (pg : Page) : List JSObj :=
  let cards := pg.testidCards.filterMap mapTestidCard
  if cards.length = 0 then pg.genericCards.filterMap mapGenericCard
  else cards

/-- The listing-page extraction pipeline of `requestHandler`
(main.js:346-355): `__NEXT_DATA__` first; when that is null or empty, the
selector extraction.  JSON-LD is not consulted on listing pages. -/
def listingCards (pg : Page) : List JSObj :=
  match extractNextData pg with
  | none => extractListingCards pg
  | some cs => if cs.length = 0 then extractListingCards pg else cs

/-- Raw selector-query results for a detail page (main.js:205-253):
`.text()` reads are strings, `meta` attribute reads are `Option`. -/
structure DetailSel where
  h1Text : String := ""
  classTitleText : String := ""
  priceSelText : String := ""
  priceMetaContent : Option String := none
  locationSelText : String := ""
  locationMetaContent : Option String := none
  bedroomsText : String := ""
  bathroomsText : String := ""
  areaSelText : String := ""
  areaItempropText : String := ""
  agentText : String := ""
  postedSelText : String := ""
  postedMetaContent : Option String := none
  descText : String := ""
  descMetaContent : Option String := none
  deriving DecidableEq, Repr

/-- JavaScript `a.text() || b.attr(...)`: an empty text read falls back to
the (possibly undefined) attribute. -/
def textOrMeta (t : String) (m : Option String) : Option String :=
  if t.isEmpty then m else some t

/-- JavaScript `a.text() || b.text()` between two text reads. -/
def textOrText (a b : String) : String :=
  if a.isEmpty then b else a

/-- The `areaUnit` expression of the detail extractor (main.js:236-237):
`(areaText && (sqft-match || m2-match)) || null` on an `areaText` already
normalized to a string. -/
def detailAreaUnit (areaText : String) : Option JSVal :=
  if areaText.isEmpty then none
  else jsOrV (jsOrV ((sqftTok areaText).map .str)
    ((m2DetailTok areaText).map .str)) none

/-- Embeds `extractDetailFromHtml` (main.js:205-269): the twelve-key record
literal, every key present, with possibly null values; `title` has no
literal fallback here. -/
def extractDetailFromHtml (d : DetailSel) (url : String) : JSObj :=
  let title :=
    jsOrV ((cleanText (some d.h1Text)).map .str)
      ((cleanText (some d.classTitleText)).map .str)
  let priceText := (cleanText (textOrMeta d.priceSelText d.priceMetaContent)).getD ""
  let pc := parsePrice (some priceText)
  let location := cleanText (textOrMeta d.locationSelText d.locationMetaContent)
  let bedrooms := numberFromText (some d.bedroomsText)
  let bathrooms := numberFromText (some d.bathroomsText)
  let areaText :=
    (cleanText (some (textOrText d.areaSelText d.areaItempropText))).getD ""
  let area := numberFromText (some areaText)
  let agentName := cleanText (some d.agentText)
  let postedDate := cleanText (textOrMeta d.postedSelText d.postedMetaContent)
  let desc := cleanText (textOrMeta d.descText d.descMetaContent)
  fun k =>
    match k with
    | .title => some title
    | .price => some (pc.1.map .num)
    | .currency => some (some (.str pc.2))
    | .location => some (location.map .str)
    | .bedrooms => some (bedrooms.map .num)
    | .bathrooms => some (bathrooms.map .num)
    | .area => some (area.map .num)
    | .areaUnit => some (detailAreaUnit areaText)
    | .agentName => some (agentName.map .str)
    | .postedDate => some (postedDate.map .str)
    | .description => some (desc.map .str)
    | .url => some (some (.str url))
    | _ => none

/-- A fetched detail page: its `ld+json` blocks and its selector reads. -/
structure DetailPage where
  ldBlocks : List LdBlock := []
  sel : DetailSel := {}

/-- The object with only the `url` key (the trailing `url` shorthand of
main.js:283). -/
def urlSingleton (u : String) : JSObj := fun k =>
  if k = Field.url then some (some (.str u)) else none

/-- Embeds the record assembly of `fetchDetailWithCheerio` (main.js:281-283):
`{ ...htmlData, ...jsonLd, url }` with `jsonLd = extractJsonLd($) || {}`. -/
def fetchDetailData (dp : DetailPage) (u : String) : JSObj :=
  spreadObj
    (spreadObj (extractDetailFromHtml dp.sel u)
      ((extractJsonLd dp.ldBlocks).getD emptyObj))
    (urlSingleton u)

/-!
The crawl controller (main.js:288-440).  The network is an `Env`: listing
pages indexed by page number, and detail fetches by URL (`none` models a
fetch that fails after the framework's retries).  One `requestHandler`
invocation is `handlePage`; the queue-driven loop is `runCrawl`, with fuel
for termination.  The crawl is modelled sequentially: the check-then-add on
`seenUrls` and the counter update are synchronous (no `await` between
them), so concurrent handler interleavings cannot observe partial updates.
-/

/-- The run configuration after destructuring defaults and limit
computation (main.js:290-311). -/
structure Cfg where
  startUrl : Option String := none
  location : Option String := none
  propertyType : String := "apartment"
  categoryType : ℚ := 1
  resultsWanted : ℚ := 100
  maxPages : ℚ := 20
  collectDetails : Bool := true

/-- The external fetch collaborators. -/
structure Env where
  pages : ℕ → Page
  details : String → Option DetailPage

/-- Mutable crawl state: `seen` is `seenUrls`, `emitted` the dataset sink,
`saved` is `totalSaved`, `aborted` the autoscaled-pool abort flag,
`fetched` the page numbers of issued listing-page fetches, and
`enqueuedPages` the `enqueuedPages` URL set. -/
structure CrawlSt where
  seen : List String := []
  emitted : List JSObj := []
  saved : ℕ := 0
  aborted : Bool := false
  fetched : List ℕ := []
  enqueuedPages : List String := []

/-- The base record of main.js:366-370:
`{ ...card, propertyType: card.propertyType || propertyType, url: card.url }`. -/
def mkBase (cfg : Cfg) (card : JSObj) : JSObj := fun k =>
  match k with
  | .propertyType =>
    some (jsOrV (getVal card Field.propertyType) (some (.str cfg.propertyType)))
  | .url => some (getVal card Field.url)
  | k => card k

/-- The record emitted for a processed card (main.js:372-393): without
detail collection the base record; with it, the spread-merge of the base
record and the detail data, falling back to the base record alone when the
detail fetch fails. -/
def recordFor (cfg : Cfg) (env : Env) (card : JSObj) (u : String) : JSObj :=
  if cfg.collectDetails then
    match env.details u with
    | some dp => spreadObj (mkBase cfg card) (fetchDetailData dp u)
    | none => mkBase cfg card
  else mkBase cfg card

/-- Marking a URL seen, pushing a record, bumping `totalSaved`, and firing
the quota abort when `totalSaved >= RESULTS_WANTED` (main.js:364-399). -/
def emitRecord (cfg : Cfg) (st : CrawlSt) (u : String) (rec : JSObj) : CrawlSt :=
  let st2 : CrawlSt :=
    { st with
      seen := st.seen ++ [u]
      emitted := st.emitted ++ [rec]
      saved := st.saved + 1 }
  if cfg.resultsWanted ≤ (st2.saved : ℚ) then { st2 with aborted := true }
  else st2

/-- One iteration of the card loop (main.js:362-400).  Cards with a falsy
or already-seen URL are skipped.  The extractors only produce string or
nullish URL values (`listingCards_url_shape` below), so the wildcard arm is
unreachable for pipeline cards. -/
def stepCard (cfg : Cfg) (env : Env) (st : CrawlSt) (card : JSObj) : CrawlSt :=
  if st.aborted then st
  else
    match getVal card Field.url with
    | some (.str u) =>
      if u.isEmpty = true ∨ u ∈ st.seen then st
      else emitRecord cfg st u (recordFor cfg env card u)
    | _ => st

/-- One `requestHandler` invocation on listing page `pageNo`
(main.js:342-418), returning the new state and the page number enqueued for
the next fetch, if any.  With no cards the handler returns before the
pagination block; after a quota abort it returns as well. -/
def handlePage (cfg : Cfg) (env : Env) (pageNo : ℕ) (st : CrawlSt) :
    CrawlSt × Option ℕ :=
  let cards := listingCards (env.pages pageNo)
  if cards.length = 0 then (st, none)
  else
    let st2 := cards.foldl (stepCard cfg env) st
    if st2.aborted then (st2, none)
    else if (pageNo : ℚ) < cfg.maxPages ∧ (st2.saved : ℚ) < cfg.resultsWanted then
      match buildSearchUrl cfg.startUrl cfg.location cfg.propertyType
          cfg.categoryType (pageNo + 1) with
      | .ok nextUrl =>
        if nextUrl ∈ st2.enqueuedPages then (st2, none)
        else
          ({ st2 with enqueuedPages := st2.enqueuedPages ++ [nextUrl] },
            some (pageNo + 1))
      | .error _ => (st2, none)
    else (st2, none)

/-- The crawler's request loop: fetch the queued listing page, run the
handler, continue with the enqueued page if any.  An aborted pool processes
nothing further.  `fuel` bounds the recursion; every claim is proved for
all fuels. -/
def runCrawl (cfg : Cfg) (env : Env) : ℕ → ℕ → CrawlSt → CrawlSt
  | 0, _, st => st
  | fuel + 1, pageNo, st =>
    if st.aborted then st
    else
      let st1 := { st with fetched := st.fetched ++ [pageNo] }
      match handlePage cfg env pageNo st1 with
      | (st2, none) => st2
      | (st2, some next) => runCrawl cfg env fuel next st2

/-- The initial crawl state (main.js:332-334 and 428). -/
def initState (initialUrl : String) : CrawlSt :=
  { enqueuedPages := [initialUrl] }

/-- Raw actor input (main.js:289-299).  For `results_wanted` and
`max_pages`, the outer `Option` is key absence/undefined (the destructuring
default applies) and the inner `Option` is an explicit null. -/
structure Input where
  startUrl : Option String := none
  propertyType : Option String := none
  location : Option String := none
  categoryType : Option ℚ := none
  resultsWantedRaw : Option (Option JSVal) := none
  maxPagesRaw : Option (Option JSVal) := none
  collectDetails : Option Bool := none

/-- The destructuring default plus the unary `+` coercion applied to
`results_wanted`/`max_pages` (main.js:295-296, 308, 311): an absent key
takes the default, null coerces to 0, strings coerce strictly, booleans to
0/1, objects to NaN. -/
def coerceRaw (raw : Option (Option JSVal)) (dflt : ℚ) : JSNum :=
  match raw with
  | none => .num dflt
  | some none => .num 0
  | some (some (.num n)) => n
  | some (some (.str s)) => jsStrictNumber s
  | some (some (.bool b)) => .num (if b then 1 else 0)
  | some (some (.objWithName _)) => .nan

/-- `Number.isFinite` on the model of JavaScript numbers. -/
def jsIsFinite : JSNum → Bool
  | .num _ => true
  | _ => false

/-- The effective results quota (main.js:308-310):
`Number.isFinite(+raw) ? Math.max(1, +raw) : Number.MAX_SAFE_INTEGER`. -/
def computeResultsWanted (n : JSNum) : ℚ :=
  match n with
  | .num q => max 1 q
  | _ => 9007199254740991

/-- The effective page cap (main.js:311):
`Number.isFinite(+raw) ? Math.max(1, +raw) : 20`. -/
def computeMaxPages (n : JSNum) : ℚ :=
  match n with
  | .num q => max 1 q
  | _ => 20

/-- The validation predicate of main.js:301-306: an effective
`categoryType` other than 1 or 2, or both `startUrl` and `location`
falsy. -/
def badConfig (inp : Input) : Prop :=
  ¬(inp.categoryType.getD 1 = 1 ∨ inp.categoryType.getD 1 = 2) ∨
    (strFalsy inp.startUrl = true ∧ strFalsy inp.location = true)

instance (inp : Input) : Decidable (badConfig inp) := by
  unfold badConfig; infer_instance

/-- The full pre-fetch fatal-abort condition of the program: one of the
two validation errors of main.js:301-306, or a truthy `startUrl` on which
`new URL(startUrl)` (main.js:38, reached from main.js:421 before
`crawler.run`) throws. -/
def preFetchAbort (inp : Input) : Prop :=
  badConfig inp ∨
    (strFalsy inp.startUrl = false ∧ urlParseOk (inp.startUrl.getD "") = false)

instance (inp : Input) : Decidable (preFetchAbort inp) := by
  unfold preFetchAbort; infer_instance

/-- Embeds `main` (main.js:288-440 and the `main().catch` at 442-449):
validate the configuration, build the initial URL (which can itself throw,
main.js:38 and 43), run the crawl; every such failure is a fatal error
before any fetch, and a completed crawl returns its final state (with any
number of emitted records, including zero) as a normal result. -/
def mainRun (inp : Input) (env : Env) (fuel : ℕ) : Except ConfigError CrawlSt :=
  let categoryType := inp.categoryType.getD 1
  if ¬(categoryType = 1 ∨ categoryType = 2) then .error .invalidCategoryType
  else if strFalsy inp.startUrl && strFalsy inp.location then
    .error .missingCriteria
  else
    let cfg : Cfg :=
      { startUrl := inp.startUrl
        location := inp.location
        propertyType := (inp.propertyType.getD "apartment")
        categoryType := categoryType
        resultsWanted := computeResultsWanted (coerceRaw inp.resultsWantedRaw 100)
        maxPages := computeMaxPages (coerceRaw inp.maxPagesRaw 20)
        collectDetails := inp.collectDetails.getD true }
    match buildSearchUrl cfg.startUrl cfg.location cfg.propertyType
        cfg.categoryType 1 with
    | .error e => .error e
    | .ok initialUrl => .ok (runCrawl cfg env fuel 1 (initState initialUrl))

/-- Modelled from the spec (section 4.4): the merge precedence the
specification asserts, where a detail value overwrites the listing value
exactly when it is non-null.  Stated only to be compared against the
code's spread-merge. -/
def specMergePrecedence (l d : JSObj) : JSObj := fun k =>
  match d k with
  | some (some v) => some (some v)
  | _ => l k

/-- The twelve keys always present on a detail record. -/
def detailFieldKeys : List Field :=
  [.title, .price, .currency, .location, .bedrooms, .bathrooms, .area,
    .areaUnit, .agentName, .postedDate, .description, .url]

/-!
Concrete fixtures used by counterexamples and witnesses.
-/

/-- A listing card whose selector reads populate title and location. -/
def c1sel : SelCard :=
  { linkHref := some "https://u1", titleText := "Nice Flat",
    locationText := "Dubai Marina" }

/-- The extracted card for `c1sel`. -/
def c1card : JSObj := (mapTestidCard c1sel).getD emptyObj

/-- The base record built from `c1card` under the default configuration. -/
def c1base : JSObj := mkBase {} c1card

/-- A detail page on which every selector read comes back empty. -/
def c1dp : DetailPage := {}

/-- The detail data assembled for `c1dp`. -/
def c1detail : JSObj := fetchDetailData c1dp "https://u1"

/-- A listing page carrying only `c1sel`. -/
def c1page : Page := { testidCards := [c1sel] }

/-- A configuration with detail collection on (the default). -/
def c1cfg : Cfg := { location := some "dubai" }

/-- An environment where the detail fetch succeeds but extracts nothing. -/
def c1env : Env :=
  { pages := fun n => if n = 1 then c1page else {},
    details := fun _ => some c1dp }

/-- A `__NEXT_DATA__` property with a URL but no name and no title. -/
def c9prop : NDProp := { slug := some (.str "https://u9") }

/-- A listing page whose embedded state holds only `c9prop`. -/
def c9page : Page := { nextDataProperties := some [c9prop] }

/-- A listings-only configuration. -/
def c9cfg : Cfg := { location := some "dubai", collectDetails := false }

/-- The environment serving `c9page` as page 1. -/
def c9env : Env :=
  { pages := fun n => if n = 1 then c9page else {},
    details := fun _ => none }

/-- A JSON-LD candidate of a recognized type. -/
def c4cand : LdCandidate :=
  { atType := some "RealEstateListing", name := some (.str "LD Villa"),
    url := some (.str "https://ld1") }

/-- A page where the embedded state is absent, a typed JSON-LD candidate is
present, and both selector tiers yield nothing. -/
def c4page : Page :=
  { nextDataProperties := none, ldBlocks := [.cand c4cand],
    testidCards := [], genericCards := [] }

/-- A single-card page for the detail-fallback witness. -/
def c6page : Page := { testidCards := [{ linkHref := some "https://u1" }] }

/-- Configuration for the detail-fallback witness (details on). -/
def c6cfg : Cfg := { location := some "dubai" }

/-- Environment whose every detail fetch fails after retries. -/
def c6env : Env :=
  { pages := fun n => if n = 1 then c6page else {},
    details := fun _ => none }

/-- Five distinct-URL cards, as in the spec's happy-path scenario. -/
def c3page : Page :=
  { testidCards :=
      [{ linkHref := some "https://a1" }, { linkHref := some "https://a2" },
        { linkHref := some "https://a3" }, { linkHref := some "https://a4" },
        { linkHref := some "https://a5" }] }

/-- Configuration with `results_wanted = 3`, listings only. -/
def c3cfg : Cfg :=
  { location := some "dubai", resultsWanted := 3, collectDetails := false }

/-- Environment serving `c3page` as page 1. -/
def c3env : Env :=
  { pages := fun n => if n = 1 then c3page else {},
    details := fun _ => none }

/-- Configuration with `max_pages = 2`. -/
def c5cfg : Cfg := { location := some "dubai", maxPages := 2 }

/-- Environment with distinct single-card pages 1 and 2. -/
def c5env : Env :=
  { pages := fun n =>
      if n = 1 then { testidCards := [{ linkHref := some "https://a1" }] }
      else if n = 2 then { testidCards := [{ linkHref := some "https://b1" }] }
      else {},
    details := fun _ => none }

/-- Configuration whose quota is the effective value for `results_wanted = 0`. -/
def c10cfg : Cfg :=
  { location := some "dubai",
    resultsWanted := computeResultsWanted (.num 0), collectDetails := false }

/-- Environment with a two-card page 1. -/
def c10env : Env :=
  { pages := fun n =>
      if n = 1 then
        { testidCards := [{ linkHref := some "https://a1" },
            { linkHref := some "https://a2" }] }
      else {},
    details := fun _ => none }

/-- An input supplying neither `startUrl` nor `location`. -/
def c7badInp : Input := {}

/-- An input with an invalid `categoryType`. -/
def c7badInp2 : Input := { location := some "dubai", categoryType := some 3 }

/-- A valid input. -/
def c7goodInp : Input := { location := some "dubai" }

/-- An input whose `startUrl` is truthy but not a parseable absolute URL. -/
def c7malformedInp : Input := { startUrl := some "not a url" }

/-- A valid input that supplies a well-formed `startUrl`. -/
def c7startInp : Input := { startUrl := some "https://www.propertyfinder.ae/en/search" }

/-- An environment on which every page is empty. -/
def c7envEmpty : Env := { pages := fun _ => {}, details := fun _ => none }

/-!
Invariants of the crawl state.
-/

/-- The hypothesis-free crawl invariant: emitted URL values are pairwise
distinct, every emitted record carries a string URL recorded in `seen`, and
every seen URL has an emitted record, with `saved` counting emissions. -/
def CoreInv (st : CrawlSt) : Prop :=
  (st.emitted.map (fun r => getVal r Field.url)).Nodup ∧
  (∀ r ∈ st.emitted, ∃ u, getVal r Field.url = some (JSVal.str u) ∧ u ∈ st.seen) ∧
  (∀ u ∈ st.seen, ∃ r ∈ st.emitted, getVal r Field.url = some (JSVal.str u)) ∧
  st.saved = st.emitted.length

/-- The quota invariant for a natural quota `Q`: the saved count never
exceeds `Q`, and strictly precedes it while the pool is not aborted. -/
def QuotaInv (Q : ℕ) (st : CrawlSt) : Prop :=
  st.saved ≤ Q ∧ (st.aborted = false → st.saved < Q)

/-- The detail-fallback invariant for a URL `U` whose detail fetch fails:
every emitted record with URL `U` is the un-enriched base record of some
card carrying that URL. -/
def DetailInv (cfg : Cfg) (U : String) (st : CrawlSt) : Prop :=
  ∀ r ∈ st.emitted, getVal r Field.url = some (JSVal.str U) →
    ∃ c, getVal c Field.url = some (JSVal.str U) ∧ r = mkBase cfg c

/-!
Helper lemmas.
-/

theorem getVal_mkBase_url (cfg : Cfg) (card : JSObj) :
    getVal (mkBase cfg card) Field.url = getVal card Field.url := rfl

theorem fetchDetailData_url (dp : DetailPage) (u : String) :
    fetchDetailData dp u Field.url = some (some (JSVal.str u)) := rfl

theorem getVal_recordFor_url (cfg : Cfg) (env : Env) (card : JSObj)
    (u : String) (h : getVal card Field.url = some (JSVal.str u)) :
    getVal (recordFor cfg env card u) Field.url = some (JSVal.str u) := by
  unfold recordFor
  by_cases hc : cfg.collectDetails = true
  · simp only [hc, if_true]
    cases hd : env.details u with
    | none => rw [getVal_mkBase_url, h]
    | some dp => simp [getVal, spreadObj, fetchDetailData_url]
  · simp only [hc, if_false, Bool.false_eq_true]
    rw [getVal_mkBase_url, h]

theorem recordFor_of_fail (cfg : Cfg) (env : Env) (card : JSObj) (u : String)
    (h : env.details u = none) :
    recordFor cfg env card u = mkBase cfg card := by
  unfold recordFor
  split
  · rw [h]
  · rfl

theorem emitRecord_coreInv {cfg : Cfg} {st : CrawlSt} {u : String} {rec : JSObj}
    (h : CoreInv st) (hu : u ∉ st.seen)
    (hrec : getVal rec Field.url = some (JSVal.str u)) :
    CoreInv (emitRecord cfg st u rec) := by
  obtain ⟨h1, h2, h3, h4⟩ := h
  have key : CoreInv
      { st with
        seen := st.seen ++ [u]
        emitted := st.emitted ++ [rec]
        saved := st.saved + 1 } := by
    refine ⟨?_, ?_, ?_, ?_⟩
    · simp only [List.map_append, List.map_cons, List.map_nil]
      refine List.Nodup.append h1 (List.nodup_singleton _) ?_
      intro x hx hx2
      simp only [List.mem_singleton] at hx2
      subst hx2
      obtain ⟨r, hrmem, hrx⟩ := List.mem_map.mp hx
      obtain ⟨u2, hu2, hu2seen⟩ := h2 r hrmem
      rw [hrec] at hrx
      rw [hu2] at hrx
      cases hrx
      exact hu hu2seen
    · intro r hr
      rcases List.mem_append.mp hr with hr | hr
      · obtain ⟨u2, e, s⟩ := h2 r hr
        exact ⟨u2, e, List.mem_append.mpr (Or.inl s)⟩
      · simp only [List.mem_singleton] at hr
        subst hr
        exact ⟨u, hrec, List.mem_append.mpr (Or.inr (List.mem_singleton.mpr rfl))⟩
    · intro v hv
      rcases List.mem_append.mp hv with hv | hv
      · obtain ⟨r, hrm, hre⟩ := h3 v hv
        exact ⟨r, List.mem_append.mpr (Or.inl hrm), hre⟩
      · simp only [List.mem_singleton] at hv
        subst hv
        exact ⟨rec, List.mem_append.mpr (Or.inr (List.mem_singleton.mpr rfl)), hrec⟩
    · simp [h4]
  unfold emitRecord
  dsimp only
  split
  · exact key
  · exact key

theorem stepCard_coreInv (cfg : Cfg) (env : Env) :
    ∀ (st : CrawlSt) (card : JSObj), CoreInv st → CoreInv (stepCard cfg env st card) := by
  intro st card h
  unfold stepCard
  split
  · exact h
  · cases hurl : getVal card Field.url with
    | none => simp only [hurl]; exact h
    | some v =>
      cases v with
      | str u =>
        simp only [hurl]
        split
        · exact h
        · rename_i hcond
          push_neg at hcond
          exact emitRecord_coreInv h hcond.2 (getVal_recordFor_url cfg env card u hurl)
      | num n => simp only [hurl]; exact h
      | bool b => simp only [hurl]; exact h
      | objWithName s => simp only [hurl]; exact h

theorem foldl_pres {cfg : Cfg} {env : Env} {P : CrawlSt → Prop}
    (hstep : ∀ st c, P st → P (stepCard cfg env st c)) :
    ∀ (cards : List JSObj) (st : CrawlSt), P st →
      P (cards.foldl (stepCard cfg env) st)
  | [], _, h => h
  | c :: cs, st, h => foldl_pres hstep cs _ (hstep st c h)

theorem handlePage_pres {cfg : Cfg} {env : Env} {P : CrawlSt → Prop}
    (hstep : ∀ st c, P st → P (stepCard cfg env st c))
    (henq : ∀ st nu, P st →
      P { st with enqueuedPages := st.enqueuedPages ++ [nu] })
    (n : ℕ) (st : CrawlSt) (h : P st) : P (handlePage cfg env n st).1 := by
  unfold handlePage
  dsimp only
  split
  · exact h
  · have h2 : P ((listingCards (env.pages n)).foldl (stepCard cfg env) st) :=
      foldl_pres hstep _ _ h
    split
    · exact h2
    · split
      · split
        · split
          · exact h2
          · exact henq _ _ h2
        · exact h2
      · exact h2

theorem runCrawl_pres {cfg : Cfg} {env : Env} {P : CrawlSt → Prop}
    (hstep : ∀ st c, P st → P (stepCard cfg env st c))
    (henq : ∀ st nu, P st →
      P { st with enqueuedPages := st.enqueuedPages ++ [nu] })
    (hfetch : ∀ st n, P st → P { st with fetched := st.fetched ++ [n] }) :
    ∀ (fuel pageNo : ℕ) (st : CrawlSt), P st →
      P (runCrawl cfg env fuel pageNo st)
  | 0, _, _, h => h
  | fuel + 1, pageNo, st, h => by
    unfold runCrawl
    dsimp only
    split
    · exact h
    · have h1 := hfetch st pageNo h
      rcases hh : handlePage cfg env pageNo
          { st with fetched := st.fetched ++ [pageNo] } with ⟨st2, next⟩
      have h2 : P st2 := by
        have h3 := handlePage_pres hstep henq pageNo
          { st with fetched := st.fetched ++ [pageNo] } h1
        rw [hh] at h3
        exact h3
      cases next with
      | none => exact h2
      | some m => exact runCrawl_pres hstep henq hfetch fuel m st2 h2

theorem coreInv_init (u0 : String) : CoreInv (initState u0) := by
  refine ⟨?_, ?_, ?_, rfl⟩ <;> simp [initState]

theorem runCrawl_coreInv (cfg : Cfg) (env : Env) (fuel pageNo : ℕ)
    (st : CrawlSt) (h : CoreInv st) :
    CoreInv (runCrawl cfg env fuel pageNo st) :=
  runCrawl_pres (stepCard_coreInv cfg env) (fun _ _ hp => hp) (fun _ _ hp => hp)
    fuel pageNo st h

theorem stepCard_quota {cfg : Cfg} {env : Env} {Q : ℕ}
    (hQ : cfg.resultsWanted = (Q : ℚ)) :
    ∀ (st : CrawlSt) (c : JSObj), QuotaInv Q st →
      QuotaInv Q (stepCard cfg env st c) := by
  intro st c h
  obtain ⟨hle, hlt⟩ := h
  unfold stepCard
  split
  · exact ⟨hle, hlt⟩
  · rename_i hab
    have habf : st.aborted = false := by
      revert hab; cases st.aborted <;> simp
    have hsav : st.saved < Q := hlt habf
    cases hurl : getVal c Field.url with
    | none => simp only [hurl]; exact ⟨hle, hlt⟩
    | some v =>
      cases v with
      | str u =>
        simp only [hurl]
        split
        · exact ⟨hle, hlt⟩
        · unfold emitRecord
          dsimp only
          split
          · exact ⟨Nat.succ_le_of_lt hsav, fun hcon => Bool.noConfusion hcon⟩
          · rename_i hq
            rw [hQ] at hq
            push_neg at hq
            have hlt2 : st.saved + 1 < Q := by exact_mod_cast hq
            exact ⟨Nat.le_of_lt hlt2, fun _ => hlt2⟩
      | num n => simp only [hurl]; exact ⟨hle, hlt⟩
      | bool b => simp only [hurl]; exact ⟨hle, hlt⟩
      | objWithName s => simp only [hurl]; exact ⟨hle, hlt⟩

theorem runCrawl_quota {cfg : Cfg} {env : Env} {Q : ℕ}
    (hQ : cfg.resultsWanted = (Q : ℚ)) (fuel pageNo : ℕ) (st : CrawlSt)
    (h : QuotaInv Q st) : QuotaInv Q (runCrawl cfg env fuel pageNo st) :=
  runCrawl_pres (stepCard_quota hQ) (fun _ _ hp => hp) (fun _ _ hp => hp)
    fuel pageNo st h

theorem stepCard_detailInv {cfg : Cfg} {env : Env} {U : String}
    (hU : env.details U = none) :
    ∀ (st : CrawlSt) (c : JSObj), DetailInv cfg U st →
      DetailInv cfg U (stepCard cfg env st c) := by
  intro st c h
  unfold stepCard
  split
  · exact h
  · cases hurl : getVal c Field.url with
    | none => simp only [hurl]; exact h
    | some v =>
      cases v with
      | str u =>
        simp only [hurl]
        split
        · exact h
        · intro r hr hru
          have hmem : r ∈ st.emitted ++ [recordFor cfg env c u] := by
            revert hr
            unfold emitRecord
            dsimp only
            split <;> exact fun hr => hr
          rcases List.mem_append.mp hmem with hm | hm
          · exact h r hm hru
          · simp only [List.mem_singleton] at hm
            subst hm
            have heq : some (JSVal.str u) = some (JSVal.str U) := by
              rw [← getVal_recordFor_url cfg env c u hurl, hru]
            have huU : u = U := by
              injection heq with heq2
              injection heq2
            subst huU
            exact ⟨c, hurl, recordFor_of_fail cfg env c u hU⟩
      | num n => simp only [hurl]; exact h
      | bool b => simp only [hurl]; exact h
      | objWithName s => simp only [hurl]; exact h

theorem runCrawl_detailInv {cfg : Cfg} {env : Env} {U : String}
    (hU : env.details U = none) (fuel pageNo : ℕ) (st : CrawlSt)
    (h : DetailInv cfg U st) :
    DetailInv cfg U (runCrawl cfg env fuel pageNo st) :=
  runCrawl_pres (stepCard_detailInv hU) (fun _ _ hp => hp) (fun _ _ hp => hp)
    fuel pageNo st h

theorem stepCard_fetched (cfg : Cfg) (env : Env) (st : CrawlSt) (c : JSObj) :
    (stepCard cfg env st c).fetched = st.fetched := by
  unfold stepCard
  split
  · rfl
  · split
    · split
      · rfl
      · unfold emitRecord
        dsimp only
        split <;> rfl
    · rfl

theorem handlePage_fetched (cfg : Cfg) (env : Env) (n : ℕ) (st : CrawlSt) :
    (handlePage cfg env n st).1.fetched = st.fetched :=
  @handlePage_pres cfg env (fun s => s.fetched = st.fetched)
    (fun s c hp => by
      show (stepCard cfg env s c).fetched = st.fetched
      rw [stepCard_fetched]
      exact hp)
    (fun s nu hp => hp) n st rfl

theorem handlePage_next {cfg : Cfg} {env : Env} {n : ℕ} {st stout : CrawlSt}
    {m : ℕ} (h : handlePage cfg env n st = (stout, some m)) :
    m = n + 1 ∧ (n : ℚ) < cfg.maxPages ∧
      (stout.saved : ℚ) < cfg.resultsWanted := by
  unfold handlePage at h
  dsimp only at h
  split at h
  · simp at h
  · split at h
    · simp at h
    · split at h
      · rename_i hcond
        split at h
        · split at h
          · simp at h
          · injection h with h1 h2
            injection h2 with h2
            subst h1
            subst h2
            exact ⟨rfl, hcond.1, hcond.2⟩
        · simp at h
      · simp at h

theorem countP_eq_one_of_nodup {α β : Type} [DecidableEq β] (f : α → β) :
    ∀ (l : List α), (l.map f).Nodup → ∀ v : β, (∃ x ∈ l, f x = v) →
      l.countP (fun x => decide (f x = v)) = 1
  | [], _, v, hex => by simp at hex
  | a :: l, hn, v, hex => by
    rw [List.countP_cons]
    rw [List.map_cons] at hn
    have hn2 := List.nodup_cons.mp hn
    by_cases hfa : f a = v
    · have hz : l.countP (fun x => decide (f x = v)) = 0 := by
        apply List.countP_eq_zero.mpr
        intro x hx
        simp only [decide_eq_true_eq]
        intro hfx
        exact hn2.1 (List.mem_map.mpr ⟨x, hx, by rw [hfx, hfa]⟩)
      simp [hz, hfa]
    · have hex2 : ∃ x ∈ l, f x = v := by
        rcases hex with ⟨x, hx, hfx⟩
        rcases List.mem_cons.mp hx with rfl | hx2
        · exact absurd hfx hfa
        · exact ⟨x, hx2, hfx⟩
      have := countP_eq_one_of_nodup f l hn2.2 v hex2
      simp [this, hfa]

theorem runCrawl_fetched_le {cfg : Cfg} {env : Env} {P : ℕ}
    (hP : cfg.maxPages = (P : ℚ)) :
    ∀ (fuel pageNo : ℕ) (st : CrawlSt), pageNo ≤ P →
      (∀ p ∈ st.fetched, p ≤ P) →
      ∀ p ∈ (runCrawl cfg env fuel pageNo st).fetched, p ≤ P
  | 0, _, _, _, hst => hst
  | fuel + 1, pageNo, st, hpn, hst => by
    unfold runCrawl
    dsimp only
    split
    · exact hst
    · have hst1 : ∀ p ∈ st.fetched ++ [pageNo], p ≤ P := by
        intro p hp
        rcases List.mem_append.mp hp with hp | hp
        · exact hst p hp
        · simp only [List.mem_singleton] at hp
          subst hp
          exact hpn
      rcases hh : handlePage cfg env pageNo
          { st with fetched := st.fetched ++ [pageNo] } with ⟨st2, next⟩
      have hfet : st2.fetched = st.fetched ++ [pageNo] := by
        have h4 := handlePage_fetched cfg env pageNo
          { st with fetched := st.fetched ++ [pageNo] }
        rw [hh] at h4
        exact h4
      cases next with
      | none =>
        intro p hp
        rw [hfet] at hp
        exact hst1 p hp
      | some m =>
        obtain ⟨hm, hlt, _⟩ := handlePage_next hh
        subst hm
        have hple : pageNo < P := by
          rw [hP] at hlt
          exact_mod_cast hlt
        exact runCrawl_fetched_le hP fuel (pageNo + 1) st2
          (Nat.succ_le_of_lt hple)
          (fun q hq => hst1 q (hfet ▸ hq))

theorem buildSearchUrl_startUrl_ok {su loc : Option String} {pt : String}
    {ct : ℚ} {p : ℕ} (h1 : strFalsy su = false)
    (h2 : urlParseOk (su.getD "") = true) :
    buildSearchUrl su loc pt ct p = .ok (setPageParam (su.getD "") p) := by
  unfold buildSearchUrl
  simp [h1, h2]

theorem buildSearchUrl_startUrl_bad {su loc : Option String} {pt : String}
    {ct : ℚ} {p : ℕ} (h1 : strFalsy su = false)
    (h2 : urlParseOk (su.getD "") = false) :
    buildSearchUrl su loc pt ct p = .error .invalidStartUrl := by
  unfold buildSearchUrl
  simp [h1, h2]

theorem buildSearchUrl_location_ok {su loc : Option String} {pt : String}
    {ct : ℚ} {p : ℕ} (h1 : strFalsy su = true) (h2 : strFalsy loc = false) :
    ∃ r, buildSearchUrl su loc pt ct p = .ok r := by
  unfold buildSearchUrl
  simp [h1, h2]

/-!
The claims.
-/

/-- C2: within one run no two emitted records share the same `url`: once a
card's URL enters `seenUrls`, later cards with that URL are skipped, so the
emitted URL values are pairwise distinct for every configuration,
environment and fuel. -/
theorem claim_C2 (cfg : Cfg) (env : Env) (fuel : ℕ) (u0 : String) :
    ((runCrawl cfg env fuel 1 (initState u0)).emitted.map
      (fun r => getVal r Field.url)).Nodup :=
  (runCrawl_coreInv cfg env fuel 1 (initState u0) (coreInv_init u0)).1

/-- C3: with a finite natural quota `Q ≥ 1` the run emits at most `Q`
records; moreover the quota check fires after each individual emission: an
aborted state processes no further card and no further page, so emission
stops immediately upon reaching `Q`, not merely at a page boundary. -/
theorem claim_C3 (cfg : Cfg) (env : Env) (fuel : ℕ) (u0 : String) (Q : ℕ)
    (hQ : cfg.resultsWanted = (Q : ℚ)) (hQ1 : 1 ≤ Q) :
    (runCrawl cfg env fuel 1 (initState u0)).emitted.length ≤ Q ∧
    (∀ (fuel2 pageNo : ℕ) (st : CrawlSt), st.aborted = true →
      runCrawl cfg env fuel2 pageNo st = st) ∧
    (∀ (st : CrawlSt) (card : JSObj), st.aborted = true →
      stepCard cfg env st card = st) := by
  refine ⟨?_, ?_, ?_⟩
  · have hq := @runCrawl_quota cfg env Q hQ fuel 1 (initState u0)
      ⟨Nat.zero_le Q, fun _ => hQ1⟩
    have hc := runCrawl_coreInv cfg env fuel 1 (initState u0) (coreInv_init u0)
    rw [← hc.2.2.2]
    exact hq.1
  · intro fuel2 pageNo st hab
    cases fuel2 with
    | zero => rfl
    | succ f =>
      unfold runCrawl
      simp [hab]
  · intro st card hab
    unfold stepCard
    simp [hab]

/-- C5: with `max_pages = P ≥ 1`, no listing-page fetch is issued for a
page number above `P`, and page `n + 1` is enqueued only when `n < P` and
the quota is not yet reached. -/
theorem claim_C5 (cfg : Cfg) (env : Env) (fuel : ℕ) (u0 : String) (P : ℕ)
    (hP : cfg.maxPages = (P : ℚ)) (hP1 : 1 ≤ P) :
    (∀ p ∈ (runCrawl cfg env fuel 1 (initState u0)).fetched, p ≤ P) ∧
    (∀ (n m : ℕ) (st stout : CrawlSt),
      handlePage cfg env n st = (stout, some m) →
      m = n + 1 ∧ n < P ∧ (stout.saved : ℚ) < cfg.resultsWanted) := by
  constructor
  · refine runCrawl_fetched_le hP fuel 1 (initState u0) hP1 ?_
    intro p hp
    simp [initState] at hp
  · intro n m st stout hh
    obtain ⟨hm, hlt, hsv⟩ := handlePage_next hh
    refine ⟨hm, ?_, hsv⟩
    rw [hP] at hlt
    exact_mod_cast hlt

/-- C6: a processed card whose URL's detail fetch fails after retries is
emitted exactly once, and every emitted record with that URL is the
un-enriched base record of a card carrying it — the listing is never
silently dropped. -/
theorem claim_C6 (cfg : Cfg) (env : Env) (fuel : ℕ) (u0 U : String)
    (h1 : env.details U = none) (_h2 : cfg.collectDetails = true)
    (h3 : U ∈ (runCrawl cfg env fuel 1 (initState u0)).seen) :
    ((runCrawl cfg env fuel 1 (initState u0)).emitted.countP
      (fun r => decide (getVal r Field.url = some (JSVal.str U)))) = 1 ∧
    (∀ r ∈ (runCrawl cfg env fuel 1 (initState u0)).emitted,
      getVal r Field.url = some (JSVal.str U) →
      ∃ c, getVal c Field.url = some (JSVal.str U) ∧ r = mkBase cfg c) := by
  have hc := runCrawl_coreInv cfg env fuel 1 (initState u0) (coreInv_init u0)
  have hd := @runCrawl_detailInv cfg env U h1 fuel 1 (initState u0)
    (by intro r hr hru; simp [initState] at hr)
  constructor
  · obtain ⟨r, hrm, hre⟩ := hc.2.2.1 U h3
    exact countP_eq_one_of_nodup (fun r => getVal r Field.url) _ hc.1 _
      ⟨r, hrm, hre⟩
  · exact hd

/-- C7 (counterexample): the input with `startUrl` `"not a url"` meets
neither of the claim's two abort conditions, yet for every environment and
fuel the run aborts fatally before any fetch — `new URL(startUrl)`
(main.js:38, reached from main.js:421 before `crawler.run`) throws on it —
so those two conditions are not the only pre-fetch aborts. -/
theorem claim_C7_counterexample :
    ¬ badConfig c7malformedInp ∧
    strFalsy c7malformedInp.startUrl = false ∧
    urlParseOk (c7malformedInp.startUrl.getD "") = false ∧
    (∀ (env : Env) (fuel : ℕ),
      mainRun c7malformedInp env fuel = .error ConfigError.invalidStartUrl) :=
  ⟨by decide, by decide, by decide, fun env fuel => rfl⟩

/-- C7 (corrected): the run aborts with a fatal error before any fetch —
the result is then independent of the environment and fuel — exactly when
the effective `categoryType` is neither 1 nor 2, both `startUrl` and
`location` are falsy, or a truthy `startUrl` fails to parse as an absolute
URL (the `new URL(startUrl)` throw of main.js:38); any other configuration
completes normally — in particular a run that saves zero records is a
normal completion, not an error. -/
theorem claim_C7_amended (inp : Input) (env : Env) (fuel : ℕ) :
    ((mainRun inp env fuel).isOk = false ↔ preFetchAbort inp) ∧
    ((mainRun inp env fuel).isOk = false →
      ∀ (env2 : Env) (fuel2 : ℕ), mainRun inp env2 fuel2 = mainRun inp env fuel) ∧
    (¬ preFetchAbort inp → (mainRun inp env fuel).isOk = true) := by
  by_cases hcat : inp.categoryType.getD 1 = 1 ∨ inp.categoryType.getD 1 = 2
  · by_cases hmiss : strFalsy inp.startUrl = true ∧ strFalsy inp.location = true
    · have hmain : ∀ (e : Env) (f : ℕ),
          mainRun inp e f = .error .missingCriteria := by
        intro e f
        unfold mainRun
        rw [if_neg (not_not_intro hcat),
          if_pos (show (strFalsy inp.startUrl && strFalsy inp.location) = true by
            rw [hmiss.1, hmiss.2]; rfl)]
      refine ⟨⟨fun _ => Or.inl (Or.inr hmiss),
        fun _ => by rw [hmain env fuel]; rfl⟩, ?_, ?_⟩
      · intro _ e2 f2
        rw [hmain e2 f2, hmain env fuel]
      · intro hnb
        exact absurd (Or.inl (Or.inr hmiss)) hnb
    · cases hsu : strFalsy inp.startUrl with
      | true =>
        have hloc : strFalsy inp.location = false := by
          cases hl : strFalsy inp.location
          · rfl
          · exact absurd ⟨hsu, hl⟩ hmiss
        have hmain : (mainRun inp env fuel).isOk = true := by
          unfold mainRun
          rw [if_neg (not_not_intro hcat),
            if_neg (fun hand => hmiss (by simpa using hand))]
          obtain ⟨r, hr⟩ := @buildSearchUrl_location_ok inp.startUrl
            inp.location (inp.propertyType.getD "apartment")
            (inp.categoryType.getD 1) 1 hsu hloc
          dsimp only
          rw [hr]
          rfl
        have hnab : ¬ preFetchAbort inp := by
          intro hab
          rcases hab with hb | hb
          · rcases hb with hb | hb
            · exact hb hcat
            · exact hmiss hb
          · exact Bool.noConfusion (hsu.symm.trans hb.1)
        refine ⟨⟨fun hfalse => ?_, fun hb => ?_⟩, fun hfalse => ?_,
          fun _ => hmain⟩
        · rw [hmain] at hfalse
          exact Bool.noConfusion hfalse
        · exact absurd hb hnab
        · rw [hmain] at hfalse
          exact Bool.noConfusion hfalse
      | false =>
        cases hparse : urlParseOk (inp.startUrl.getD "") with
        | true =>
          have hmain : (mainRun inp env fuel).isOk = true := by
            unfold mainRun
            rw [if_neg (not_not_intro hcat),
              if_neg (fun hand => hmiss (by simpa using hand))]
            dsimp only
            rw [@buildSearchUrl_startUrl_ok inp.startUrl inp.location
              (inp.propertyType.getD "apartment") (inp.categoryType.getD 1) 1
              hsu hparse]
            rfl
          have hnab : ¬ preFetchAbort inp := by
            intro hab
            rcases hab with hb | hb
            · rcases hb with hb | hb
              · exact hb hcat
              · exact Bool.noConfusion (hsu.symm.trans hb.1)
            · exact Bool.noConfusion (hparse.symm.trans hb.2)
          refine ⟨⟨fun hfalse => ?_, fun hb => ?_⟩, fun hfalse => ?_,
            fun _ => hmain⟩
          · rw [hmain] at hfalse
            exact Bool.noConfusion hfalse
          · exact absurd hb hnab
          · rw [hmain] at hfalse
            exact Bool.noConfusion hfalse
        | false =>
          have hmain : ∀ (e : Env) (f : ℕ),
              mainRun inp e f = .error .invalidStartUrl := by
            intro e f
            unfold mainRun
            rw [if_neg (not_not_intro hcat),
              if_neg (fun hand => hmiss (by simpa using hand))]
            dsimp only
            rw [@buildSearchUrl_startUrl_bad inp.startUrl inp.location
              (inp.propertyType.getD "apartment") (inp.categoryType.getD 1) 1
              hsu hparse]
          have hab : preFetchAbort inp := Or.inr ⟨hsu, hparse⟩
          refine ⟨⟨fun _ => hab, fun _ => by rw [hmain env fuel]; rfl⟩,
            ?_, ?_⟩
          · intro _ e2 f2
            rw [hmain e2 f2, hmain env fuel]
          · intro hnb
            exact absurd hab hnb
  · have hmain : ∀ (e : Env) (f : ℕ),
        mainRun inp e f = .error .invalidCategoryType := by
      intro e f
      unfold mainRun
      rw [if_pos hcat]
    refine ⟨⟨fun _ => Or.inl (Or.inl hcat),
      fun _ => by rw [hmain env fuel]; rfl⟩, ?_, ?_⟩
    · intro _ e2 f2
      rw [hmain e2 f2, hmain env fuel]
    · intro hnb
      exact absurd (Or.inl (Or.inl hcat)) hnb

/-- C10: the effective results quota is `max 1 results_wanted` when the
coerced raw value is finite and `Number.MAX_SAFE_INTEGER` otherwise; the
effective page cap is `max 1 max_pages` when finite and 20 otherwise; in
particular a zero or negative `results_wanted` yields an effective quota of
exactly 1. -/
theorem claim_C10 :
    (∀ q : ℚ, computeResultsWanted (.num q) = max 1 q ∧
      computeMaxPages (.num q) = max 1 q) ∧
    (∀ n : JSNum, jsIsFinite n = false →
      computeResultsWanted n = 9007199254740991 ∧ computeMaxPages n = 20) ∧
    (∀ q : ℚ, q ≤ 0 → computeResultsWanted (.num q) = 1) := by
  refine ⟨fun q => ⟨rfl, rfl⟩, ?_, ?_⟩
  · intro n hn
    cases n with
    | nan => exact ⟨rfl, rfl⟩
    | posInf => exact ⟨rfl, rfl⟩
    | negInf => exact ⟨rfl, rfl⟩
    | num q => simp [jsIsFinite] at hn
  · intro q hq
    unfold computeResultsWanted
    exact max_eq_left (hq.trans zero_le_one)

theorem extractJsonLdAux_shape : ∀ (l : List LdBlock) (o : JSObj),
    extractJsonLdAux l = some o → ∃ c, o = mapLdCandidate c
  | [], o, h => by simp [extractJsonLdAux] at h
  | .skip :: rest, o, h =>
    extractJsonLdAux_shape rest o (by simpa [extractJsonLdAux] using h)
  | .cand c :: rest, o, h => by
    unfold extractJsonLdAux at h
    split at h
    · exact ⟨c, (Option.some.inj h).symm⟩
    · exact extractJsonLdAux_shape rest o h

/-- C1 (corrected): the merge on a detail-page success is the JavaScript
spread `{ ...baseRecord, ...detailData }`: a key defined on the detail data
wins even when its value is null, a key absent from it keeps the listing
value — and the detail data always defines all twelve detail keys, so every
listing value for those keys is overwritten, null or not. -/
theorem claim_C1_amended :
    (∀ (b d : JSObj) (k : Field), d k = none → spreadObj b d k = b k) ∧
    (∀ (b d : JSObj) (k : Field) (v : Option JSVal), d k = some v →
      spreadObj b d k = some v) ∧
    (∀ (dp : DetailPage) (u : String), ∀ k ∈ detailFieldKeys,
      fetchDetailData dp u k ≠ none) ∧
    (∀ (cfg : Cfg) (env : Env) (card : JSObj) (u : String) (dp : DetailPage),
      cfg.collectDetails = true → env.details u = some dp →
      recordFor cfg env card u =
        spreadObj (mkBase cfg card) (fetchDetailData dp u)) := by
  refine ⟨?_, ?_, ?_, ?_⟩
  · intro b d k h
    simp [spreadObj, h]
  · intro b d k v h
    simp [spreadObj, h]
  · intro dp u k hk
    unfold fetchDetailData
    cases hld : extractJsonLd dp.ldBlocks with
    | none =>
      unfold detailFieldKeys at hk
      fin_cases hk <;>
        simp [spreadObj, urlSingleton, hld, emptyObj, extractDetailFromHtml]
    | some o =>
      unfold extractJsonLd at hld
      obtain ⟨c, rfl⟩ := extractJsonLdAux_shape _ o hld
      unfold detailFieldKeys at hk
      fin_cases hk <;>
        simp [spreadObj, urlSingleton, extractJsonLd, hld, mapLdCandidate,
          extractDetailFromHtml]
  · intro cfg env card u dp hc hd
    unfold recordFor
    rw [if_pos hc, hd]

/-- C1 (counterexample): a listing card with a populated location, merged
with a detail page whose extraction yields a null location, produces an
emitted record whose location is null — the spread-merge regresses the
populated listing field, contradicting the claimed non-null precedence. -/
theorem claim_C1_counterexample :
    getVal c1base Field.location = some (JSVal.str "Dubai Marina") ∧
    c1detail Field.location = some none ∧
    spreadObj c1base c1detail Field.location = some none ∧
    spreadObj c1base c1detail Field.location ≠
      specMergePrecedence c1base c1detail Field.location ∧
    ((runCrawl c1cfg c1env 2 1 (initState "https://s0")).emitted.map
      (fun r => r Field.location)) = [some none] := by
  refine ⟨by decide, by decide, by decide, by decide, by decide⟩

/-- C4 (counterexample): a listing page with no embedded state, a
recognized JSON-LD candidate, and empty selector results: tier 1 is empty,
JSON-LD extraction would succeed, yet the final card set is empty — the
listing pipeline never consults JSON-LD, so the final set does not equal
the JSON-LD output. -/
theorem claim_C4_counterexample :
    extractNextData c4page = none ∧
    (extractJsonLd c4page.ldBlocks).isSome = true ∧
    listingCards c4page = [] := by
  refine ⟨by decide, by decide, by decide⟩

/-- C4 (corrected): on listing pages extraction is two-tiered — the
embedded `__NEXT_DATA__` state wins when non-empty, otherwise the selector
extraction is used — with no merging, and the result is independent of the
page's JSON-LD blocks (JSON-LD is consulted only on detail pages). -/
theorem claim_C4_amended :
    (∀ (pg : Page) (cs : List JSObj), extractNextData pg = some cs →
      cs ≠ [] → listingCards pg = cs) ∧
    (∀ pg : Page, (extractNextData pg = none ∨ extractNextData pg = some []) →
      listingCards pg = extractListingCards pg) ∧
    (∀ (pg : Page) (bs : List LdBlock),
      listingCards { pg with ldBlocks := bs } = listingCards pg) := by
  refine ⟨?_, ?_, ?_⟩
  · intro pg cs h hne
    unfold listingCards
    rw [h]
    have hz : cs.length ≠ 0 := fun hz => hne (List.length_eq_zero.mp hz)
    simp [hz]
  · intro pg h
    unfold listingCards
    rcases h with h | h
    · rw [h]
    · rw [h]
      simp
  · intro pg bs
    rfl

/-- C8 (counterexample): `numberFromText(".")` matches the `[\d.]+` token
`"."` and `Number(".")` is NaN — the result is neither null nor a number,
contradicting the claim that the result is never NaN. -/
theorem claim_C8_counterexample :
    numberFromText (some ".") = some JSNum.nan := by decide

theorem tokensBy_cons_false {keep : Char → Bool} {c : Char} (l : List Char)
    (h : keep c = false) : tokensBy keep (c :: l) = tokensBy keep l := by
  simp [tokensBy, h]

theorem tokensBy_eq_nil {keep : Char → Bool} :
    ∀ l : List Char, (∀ c ∈ l, keep c = false) → tokensBy keep l = []
  | [], _ => rfl
  | c :: l, h => by
    rw [tokensBy_cons_false l (h c (List.mem_cons_self c l))]
    exact tokensBy_eq_nil l (fun x hx => h x (List.mem_cons_of_mem c hx))

/-- C8 (corrected): `numberFromText` strips commas and takes the first
`[\d.]+` run; with no digit-or-dot character the result is null; a
well-formed run (at most one dot, at least one digit) gives a finite
number; but a run of dots only, or with several dots, gives NaN — so
absence is null, yet the result is not always non-NaN. -/
theorem claim_C8_amended :
    (∀ s : String,
      (∀ c ∈ s.toList.filter (fun c => c ≠ ','), isNumChar c = false) →
      numberFromText (some s) = none) ∧
    (∀ (s : String) (tok : List Char),
      firstNumRun (s.toList.filter (fun c => c ≠ ',')) = some tok →
      tok.countP (fun c => c = '.') ≤ 1 → tok.any Char.isDigit = true →
      ∃ q : ℚ, numberFromText (some s) = some (JSNum.num q)) ∧
    numberFromText none = none := by
  refine ⟨?_, ?_, rfl⟩
  · intro s h
    unfold numberFromText
    cases hse : s.isEmpty with
    | true => simp [hse]
    | false =>
      simp only [hse, Bool.false_eq_true, if_false]
      rw [firstNumRun, tokensBy_eq_nil _ h]
      rfl
  · intro s tok hrun h1 h2
    have hse : s.isEmpty = false := by
      cases hse : s.isEmpty with
      | false => rfl
      | true =>
        exfalso
        have hsnil : s = "" := (String.isEmpty_iff s).mp hse
        rw [hsnil] at hrun
        simp [firstNumRun, tokensBy] at hrun
    unfold numberFromText
    simp only [hse, Bool.false_eq_true, if_false]
    rw [hrun]
    have hd : tok.countP (fun c => c = '.') = 0 ∨
        tok.countP (fun c => c = '.') = 1 := by omega
    rcases hd with hd | hd
    · exact ⟨natOfDigits tok, by simp [jsNumOfToken, hd]⟩
    · refine ⟨mkRat (natOfDigits (tok.takeWhile (fun c => c ≠ '.')) *
        10 ^ ((tok.dropWhile (fun c => c ≠ '.')).drop 1).length +
        natOfDigits ((tok.dropWhile (fun c => c ≠ '.')).drop 1))
        (10 ^ ((tok.dropWhile (fun c => c ≠ '.')).drop 1).length), ?_⟩
      simp [jsNumOfToken, hd, h2]

/-- C9 (counterexample): a `__NEXT_DATA__` property with a URL but neither
`name` nor `title` is emitted as a record whose title is null — the
embedded-state path has no literal title fallback, contradicting the claim
that every emitted record has a non-empty title. -/
theorem claim_C9_counterexample :
    ((runCrawl c9cfg c9env 2 1 (initState "https://s0")).emitted.map
      (fun r => r Field.title)) = [some none] ∧
    (runCrawl c9cfg c9env 2 1 (initState "https://s0")).emitted.length = 1 := by
  exact ⟨by decide, by decide⟩

theorem mapCard_title (s : SelCard) (c : JSObj)
    (h : mapTestidCard s = some c ∨ mapGenericCard s = some c) :
    ∃ t : String, getVal c Field.title = some (JSVal.str t) ∧ t ≠ "" := by
  have hne : ∀ a : Option String, jsOrS a "Property" ≠ "" := by
    intro a
    cases a with
    | none => decide
    | some s2 =>
      show (if s2.isEmpty = true then "Property" else s2) ≠ ""
      cases hs2 : s2.isEmpty with
      | true =>
        simp only [hs2, if_true]
        decide
      | false =>
        simp only [hs2, Bool.false_eq_true, if_false]
        intro he
        rw [he] at hs2
        exact absurd hs2 (by decide)
  rcases h with h | h
  · unfold mapTestidCard at h
    cases habs : toAbsoluteUrl s.linkHref with
    | none =>
      rw [habs] at h
      exact Option.noConfusion h
    | some u =>
      rw [habs] at h
      have hc2 := Option.some.inj h
      subst hc2
      exact ⟨jsOrS (cleanText (some s.titleText)) "Property", rfl, hne _⟩
  · unfold mapGenericCard at h
    cases habs : toAbsoluteUrl s.linkHref with
    | none =>
      rw [habs] at h
      exact Option.noConfusion h
    | some u =>
      rw [habs] at h
      have hc2 := Option.some.inj h
      subst hc2
      exact ⟨jsOrS (cleanText (some s.titleText)) "Property", rfl, hne _⟩

/-- C9 (corrected): every record produced by the selector-heuristic tiers
carries a non-empty title (falling back to the literal `'Property'`); the
embedded-state path and the detail merge have no such fallback and can
yield a null title. -/
theorem claim_C9_amended :
    ∀ (pg : Page) (c : JSObj), c ∈ extractListingCards pg →
      ∃ t : String, getVal c Field.title = some (JSVal.str t) ∧ t ≠ "" := by
  intro pg c hc
  unfold extractListingCards at hc
  dsimp only at hc
  split at hc
  · obtain ⟨s, hs, hfs⟩ := List.mem_filterMap.mp hc
    exact mapCard_title s c (Or.inr hfs)
  · obtain ⟨s, hs, hfs⟩ := List.mem_filterMap.mp hc
    exact mapCard_title s c (Or.inl hfs)

/-- Witness for C3: the spec's happy-path scenario — a quota of 3 against a
page of five distinct-URL cards emits exactly 3 records. -/
theorem claim_C3_witness :
    c3cfg.resultsWanted = ((3 : ℕ) : ℚ) ∧ (1 : ℕ) ≤ 3 ∧
    (runCrawl c3cfg c3env 3 1 (initState "https://s0")).emitted.length ≤ 3 ∧
    (runCrawl c3cfg c3env 3 1 (initState "https://s0")).emitted.length = 3 :=
  ⟨by decide, by decide,
    (claim_C3 c3cfg c3env 3 "https://s0" 3 (by decide) (by decide)).1,
    by decide⟩

/-- Witness for C5: with `max_pages = 2` the run fetches exactly pages 1
and 2. -/
theorem claim_C5_witness :
    c5cfg.maxPages = ((2 : ℕ) : ℚ) ∧ (1 : ℕ) ≤ 2 ∧
    (∀ p ∈ (runCrawl c5cfg c5env 5 1 (initState "https://s0")).fetched,
      p ≤ 2) ∧
    (runCrawl c5cfg c5env 5 1 (initState "https://s0")).fetched = [1, 2] :=
  ⟨by decide, by decide,
    (claim_C5 c5cfg c5env 5 "https://s0" 2 (by decide) (by decide)).1,
    by decide⟩

/-- Witness for C6: a card whose detail fetch fails is emitted exactly once
as the un-enriched base record. -/
theorem claim_C6_witness :
    c6env.details "https://u1" = none ∧ c6cfg.collectDetails = true ∧
    "https://u1" ∈ (runCrawl c6cfg c6env 2 1 (initState "https://s0")).seen ∧
    ((runCrawl c6cfg c6env 2 1 (initState "https://s0")).emitted.countP
      (fun r => decide (getVal r Field.url =
        some (JSVal.str "https://u1")))) = 1 ∧
    (∀ r ∈ (runCrawl c6cfg c6env 2 1 (initState "https://s0")).emitted,
      getVal r Field.url = some (JSVal.str "https://u1") →
      ∃ c, getVal c Field.url = some (JSVal.str "https://u1") ∧
        r = mkBase c6cfg c) :=
  ⟨rfl, rfl, by decide,
    (claim_C6 c6cfg c6env 2 "https://s0" "https://u1" rfl rfl (by decide)).1,
    (claim_C6 c6cfg c6env 2 "https://s0" "https://u1" rfl rfl (by decide)).2⟩

/-- Witness for the amended C7: missing criteria, an invalid category, and
a malformed truthy `startUrl` abort; a valid location-based input and a
valid `startUrl`-based input complete normally on an empty site, with zero
records. -/
theorem claim_C7_amended_witness :
    (mainRun c7badInp c7envEmpty 1).isOk = false ∧
    (mainRun c7badInp2 c7envEmpty 1).isOk = false ∧
    (mainRun c7malformedInp c7envEmpty 1).isOk = false ∧
    (mainRun c7goodInp c7envEmpty 3).isOk = true ∧
    (mainRun c7startInp c7envEmpty 3).isOk = true ∧
    (mainRun c7goodInp c7envEmpty 3).toOption.map
      (fun st => (st.emitted, st.saved)) = some ([], 0) :=
  ⟨(claim_C7_amended c7badInp c7envEmpty 1).1.mpr (by decide),
    (claim_C7_amended c7badInp2 c7envEmpty 1).1.mpr (by decide),
    (claim_C7_amended c7malformedInp c7envEmpty 1).1.mpr (by decide),
    (claim_C7_amended c7goodInp c7envEmpty 3).2.2 (by decide),
    (claim_C7_amended c7startInp c7envEmpty 3).2.2 (by decide),
    by decide⟩

/-- Witness for C10: `results_wanted = 0` yields an effective quota of 1,
under which one record is still emitted from a two-card page; non-finite
raw values yield the documented defaults. -/
theorem claim_C10_witness :
    computeResultsWanted (.num 0) = 1 ∧ computeMaxPages .nan = 20 ∧
    computeResultsWanted .nan = 9007199254740991 ∧
    (runCrawl c10cfg c10env 3 1 (initState "https://s0")).emitted.length = 1 :=
  ⟨claim_C10.2.2 0 (le_refl 0), (claim_C10.2.1 .nan rfl).2,
    (claim_C10.2.1 .nan rfl).1, by decide⟩

/-- Witness for the amended C1: at the concrete fixture the detail data
defines `location`, and the emitted record is the spread-merge of the base
record with the detail data. -/
theorem claim_C1_amended_witness :
    fetchDetailData c1dp "https://u1" Field.location ≠ none ∧
    recordFor c1cfg c1env c1card "https://u1" =
      spreadObj (mkBase c1cfg c1card) (fetchDetailData c1dp "https://u1") :=
  ⟨claim_C1_amended.2.2.1 c1dp "https://u1" Field.location (by decide),
    claim_C1_amended.2.2.2 c1cfg c1env c1card "https://u1" c1dp rfl rfl⟩

/-- Witness for the amended C4: the counterexample page resolves through
the selector tier, and its result is unchanged when its JSON-LD blocks are
removed. -/
theorem claim_C4_amended_witness :
    listingCards c4page = extractListingCards c4page ∧
    listingCards { c4page with ldBlocks := [] } = listingCards c4page :=
  ⟨claim_C4_amended.2.1 c4page (Or.inl (by decide)),
    claim_C4_amended.2.2 c4page []⟩

/-- Witness for the amended C8: a string with no digit or dot gives null,
and a comma-grouped integer gives a finite number. -/
theorem claim_C8_amended_witness :
    numberFromText (some "abc") = none ∧
    (∃ q : ℚ, numberFromText (some "1,234") = some (JSNum.num q)) :=
  ⟨claim_C8_amended.1 "abc" (by decide),
    claim_C8_amended.2.1 "1,234" ['1', '2', '3', '4'] (by decide) (by decide)
      (by decide)⟩

/-- Witness for the amended C9: the card extracted from a selector page
with an empty title text carries the literal default title. -/
theorem claim_C9_amended_witness :
    ∃ t : String,
      getVal ((mapTestidCard { linkHref := some "https://u1" }).getD emptyObj)
        Field.title = some (JSVal.str t) ∧ t ≠ "" :=
  claim_C9_amended c6page _ (by decide)

end PF
